import Mathlib

/-!
Shallow embedding of the ownership-scoped CRUD core of the
`mrinalwahal/boilerplate` repository: the organisation data-access layer
(`organisation/db`, file `db.go` — functions `sqldb.Create`, `sqldb.List`,
`sqldb.Get`, `sqldb.Update`, `sqldb.Delete` together with the option
validators of `dto.go`), the organisation service layer
(`organisation/service`), and the primitive todo service
(`services/todo/service.go`).

Modelling conventions:
* UUIDs are naturals; `0` plays the role of `uuid.Nil`.  Database-generated
  ids (`gen_random_uuid()`) are passed to `Create` as an explicit `newID`
  argument, and the wall clock (`time.Now()` / gorm auto-timestamps) as an
  explicit `now` argument, so that state changes are exact.
* The store is the list of rows; the gorm soft-delete convention is embedded
  directly: every read, update and delete adds the `deleted_at IS NULL`
  condition, `Delete` only sets the `deleted_at` tombstone, and
  `First`/`Find` with no matching row yields `gorm.ErrRecordNotFound`.
* A gorm struct condition (`txn.Where(&model.Organisation{...})`) adds an
  equality predicate only for the non-zero fields of the struct; in
  particular a claims value whose `XUserID` is the nil UUID adds no owner
  filter, and a `ListOptions.Title` equal to `""` adds no title filter.
* The Go error values of the db package and of the service package are
  distinct values of one inductive type `Err`.
-/

deriving instance DecidableEq for Except

namespace Boilerplate

/-- UUIDs, modelled as naturals; `0` stands for `uuid.Nil`. -/
abbrev UUID := Nat

/-- `uuid.Nil`, the zero UUID. -/
def UUID.null : UUID := 0

/-- JWT claims carried in the request context by `pkg/middleware`
(`middleware.JWTClaims`, field `XUserID`). -/
structure JWTClaims where
  XUserID : UUID
deriving Repr, DecidableEq

/-- The request context, reduced to the one out-of-band attribute the data
layer reads: the possibly-absent authenticated JWT claims
(`ctx.Value(middleware.XJWTClaims)`). -/
abbrev Ctx := Option JWTClaims

/-- The distinct Go error values returned by the layers: the `organisation/db`
package errors, `gorm.ErrRecordNotFound`, the `organisation/service` package
errors, and the handler-level JWT error. -/
inductive Err where
  | dbInvalidOptions
  | dbInvalidOrganisationID
  | dbInvalidUserID
  | dbInvalidTitle
  | dbInvalidFilters
  | dbNoRowsAffected
  | gormNotFound
  | svcInvalidOptions
  | svcInvalidOrganisationID
  | svcInvalidUserID
  | svcInvalidTitle
  | svcInvalidFilters
  | hndInvalidJWTClaims
deriving Repr, DecidableEq

/-- A row of the `organisations` table: `storage.Base` (`ID`, `CreatedAt`,
`UpdatedAt`, `DeletedAt`) plus `model.Organisation`'s `Title` and `OwnerID`. -/
structure Organisation where
  id : UUID
  createdAt : Nat
  updatedAt : Nat
  deletedAt : Option Nat
  title : String
  ownerID : UUID
deriving Repr, DecidableEq

/-- `db.CreateOptions` of the `organisation/db` package. -/
structure CreateOptions where
  Title : String
  OwnerID : UUID
deriving Repr, DecidableEq

/-- `db.ListOptions` of the `organisation/db` package.  `Skip` and `Limit`
are Go `int`s. -/
structure ListOptions where
  Title : String
  Skip : Int
  Limit : Int
  OrderBy : String
  OrderDirection : String
deriving Repr, DecidableEq

/-- `db.UpdateOptions` of the `organisation/db` package. -/
structure UpdateOptions where
  Title : String
deriving Repr, DecidableEq

/-- `(*db.CreateOptions).validate`: empty title, then nil owner. -/
def CreateOptions.validate (o : CreateOptions) : Option Err :=
  if o.Title = "" then some .dbInvalidTitle
  else if o.OwnerID = UUID.null then some .dbInvalidUserID
  else none

/-- `(*db.ListOptions).validate`: `Skip < 0 || Limit < 0 || Limit > 100`. -/
def ListOptions.validate (o : ListOptions) : Option Err :=
  if o.Skip < 0 ∨ o.Limit < 0 ∨ o.Limit > 100 then some .dbInvalidFilters
  else none

/-- `(*db.UpdateOptions).validate`: empty title. -/
def UpdateOptions.validate (o : UpdateOptions) : Option Err :=
  if o.Title = "" then some .dbInvalidTitle else none

/-- `(*service.CreateOptions).validate` of the `organisation/service`
package: same rules as the db validator, returning the service package's
error values. -/
def CreateOptions.svcValidate (o : CreateOptions) : Option Err :=
  if o.Title = "" then some .svcInvalidTitle
  else if o.OwnerID = UUID.null then some .svcInvalidUserID
  else none

/-- `(*service.ListOptions).validate` of the `organisation/service`
package. -/
def ListOptions.svcValidate (o : ListOptions) : Option Err :=
  if o.Skip < 0 then some .svcInvalidFilters
  else if o.Limit < 0 ∨ o.Limit > 100 then some .svcInvalidFilters
  else none

/-- `(*service.UpdateOptions).validate` of the `organisation/service`
package. -/
def UpdateOptions.svcValidate (o : UpdateOptions) : Option Err :=
  if o.Title = "" then some .svcInvalidTitle else none

/-- The Row Level Security scope extracted from the request context.  The
code reads the claims with `ctx.Value(middleware.XJWTClaims)` and, when
present, chains `txn.Where(&model.Organisation{OwnerID: claims.XUserID})`;
a gorm struct condition ignores zero-valued fields, so a present claims
value with the nil `XUserID` adds no owner predicate. -/
def ownerScope (ctx : Ctx) : Option UUID :=
  match ctx with
  | some claims => if claims.XUserID = UUID.null then none else some claims.XUserID
  | none => none

/-- Whether a row passes the owner equality predicate, when one is set. -/
def ownerOk (scope : Option UUID) (r : Organisation) : Bool :=
  match scope with
  | some u => r.ownerID = u
  | none => true

/-- Whether a row is not soft-deleted (`deleted_at IS NULL`). -/
def Organisation.live (r : Organisation) : Bool :=
  r.deletedAt = none

/-- The row predicate of the scoped single-row operations (`Get`, `Update`,
`Delete`): primary-key equality, the soft-delete condition, and the owner
scope. -/
def rowScope (scope : Option UUID) (ID : UUID) (r : Organisation) : Bool :=
  r.id = ID && r.live && ownerOk scope r

/-- The row predicate of `List`: the soft-delete condition, the owner scope,
and the optional title equality filter (only when `options.Title != ""`). -/
def listPred (scope : Option UUID) (o : ListOptions) (r : Organisation) : Bool :=
  r.live && ownerOk scope r && (o.Title = "" || r.title = o.Title)

/-- Insert a row into a list sorted by `key` (descending when `desc`). -/
def orderedInsert (key : Organisation → String) (desc : Bool) (r : Organisation) :
    List Organisation → List Organisation
  | [] => [r]
  | x :: xs =>
    if (if desc then decide (key x ≤ key r) else decide (key r ≤ key x)) then
      r :: x :: xs
    else
      x :: orderedInsert key desc r xs

/-- Insertion sort by `key` (descending when `desc`). -/
def sortRows (key : Organisation → String) (desc : Bool) :
    List Organisation → List Organisation
  | [] => []
  | x :: xs => orderedInsert key desc x (sortRows key desc xs)

/-- The `ORDER BY` step of `List` (`query.Order(options.OrderBy + " " +
options.OrderDirection)`), applied only when `options.OrderBy != ""`.  The
repository only ever orders by the `title` column (its tests use
`OrderBy: "title"`), so only that column is given ordering semantics here;
an unrecognised column name leaves the store order unchanged.  The
properties proved below are membership-level and hold for any reordering. -/
def orderRows (orderBy orderDirection : String) (rows : List Organisation) :
    List Organisation :=
  if orderBy = "" then rows
  else if orderBy = "title" then
    sortRows (fun r => r.title) (orderDirection = "desc") rows
  else rows

/-- `sqldb.Create` (`organisation/db/db.go`): nil options check, validation,
then an unscoped insert; the database generates the id and the timestamps. -/
def sqldbCreate (_ctx : Ctx) (options : Option CreateOptions) (newID : UUID)
    (now : Nat) (db : List Organisation) :
    Except Err Organisation × List Organisation :=
  match options with
  | none => (.error .dbInvalidOptions, db)
  | some o =>
    match o.validate with
    | some e => (.error e, db)
    | none =>
      let row : Organisation :=
        { id := newID, createdAt := now, updatedAt := now, deletedAt := none,
          title := o.Title, ownerID := o.OwnerID }
      (.ok row, db ++ [row])

/-- The SQL query `sqldb.List` builds once past validation: the row
conditions, the `ORDER BY` step (only when `OrderBy != ""`), the `OFFSET`
step (only when `Skip > 0`) and the `LIMIT` step (only when `Limit > 0`),
in the order SQL executes them. -/
def listQuery (scope : Option UUID) (o : ListOptions) (db : List Organisation) :
    List Organisation :=
  let filtered := db.filter (listPred scope o)
  let ordered := orderRows o.OrderBy o.OrderDirection filtered
  let skipped := if o.Skip > 0 then ordered.drop o.Skip.toNat else ordered
  if o.Limit > 0 then skipped.take o.Limit.toNat else skipped

/-- `sqldb.List` (`organisation/db/db.go`): nil options default to empty
options; validation; owner scope from the context; then the scoped, ordered
and paginated query. -/
def sqldbList (ctx : Ctx) (options : Option ListOptions)
    (db : List Organisation) : Except Err (List Organisation) :=
  let o := options.getD { Title := "", Skip := 0, Limit := 0, OrderBy := "", OrderDirection := "" }
  match o.validate with
  | some e => .error e
  | none => .ok (listQuery (ownerScope ctx) o db)

/-- `sqldb.Get` (`organisation/db/db.go`): nil id check, owner scope, then
`txn.First(&payload)` with the primary key set, which fails with
`gorm.ErrRecordNotFound` when no live, scoped row has that id. -/
def sqldbGet (ctx : Ctx) (ID : UUID) (db : List Organisation) :
    Except Err Organisation :=
  if ID = UUID.null then .error .dbInvalidOrganisationID
  else
    match db.find? (rowScope (ownerScope ctx) ID) with
    | some r => .ok r
    | none => .error .gormNotFound

/-- `sqldb.Update` (`organisation/db/db.go`): nil id check, nil options
check, validation, owner scope; `txn.Model(&payload).Updates(options)`
updates the title (and `updated_at`) of every live, scoped row with the id;
then the result of `db.Get(ctx, id)` on the updated store is returned. -/
def sqldbUpdate (ctx : Ctx) (id : UUID) (options : Option UpdateOptions)
    (now : Nat) (db : List Organisation) :
    Except Err Organisation × List Organisation :=
  if id = UUID.null then (.error .dbInvalidOrganisationID, db)
  else
    match options with
    | none => (.error .dbInvalidOptions, db)
    | some o =>
      match o.validate with
      | some e => (.error e, db)
      | none =>
        let scope := ownerScope ctx
        let rows := db.map fun r =>
          if rowScope scope id r then { r with title := o.Title, updatedAt := now }
          else r
        match sqldbGet ctx id rows with
        | .ok r => (.ok r, rows)
        | .error e => (.error e, rows)

/-- `sqldb.Delete` (`organisation/db/db.go`): nil id check, owner scope;
`txn.Delete(&payload)` soft-deletes every live, scoped row with the id by
setting the `deleted_at` tombstone; `ErrNoRowsAffected` when
`result.RowsAffected == 0`. -/
def sqldbDelete (ctx : Ctx) (ID : UUID) (now : Nat) (db : List Organisation) :
    Except Err Unit × List Organisation :=
  if ID = UUID.null then (.error .dbInvalidOrganisationID, db)
  else
    let scope := ownerScope ctx
    let affected := db.countP (rowScope scope ID)
    let rows := db.map fun r =>
      if rowScope scope ID r then { r with deletedAt := some now } else r
    if affected = 0 then (.error .dbNoRowsAffected, rows)
    else (.ok (), rows)

/-- `service.Create` (`organisation/service/service.go`): nil options check,
service-level validation, then delegation to the db layer with the same
fields. -/
def serviceCreate (ctx : Ctx) (options : Option CreateOptions) (newID : UUID)
    (now : Nat) (db : List Organisation) :
    Except Err Organisation × List Organisation :=
  match options with
  | none => (.error .svcInvalidOptions, db)
  | some o =>
    match o.svcValidate with
    | some e => (.error e, db)
    | none => sqldbCreate ctx (some { Title := o.Title, OwnerID := o.OwnerID }) newID now db

/-- `service.List` (`organisation/service/service.go`): unlike the db layer,
nil options are rejected with the service `ErrInvalidOptions`; otherwise
validate and delegate. -/
def serviceList (ctx : Ctx) (options : Option ListOptions)
    (db : List Organisation) : Except Err (List Organisation) :=
  match options with
  | none => .error .svcInvalidOptions
  | some o =>
    match o.svcValidate with
    | some e => .error e
    | none =>
      let forwarded : ListOptions :=
        { Title := o.Title, Skip := o.Skip, Limit := o.Limit,
          OrderBy := o.OrderBy, OrderDirection := o.OrderDirection }
      sqldbList ctx (some forwarded) db

/-- `service.Get` (`organisation/service/service.go`): on the nil id the
code returns the service package's `ErrInvalidOptions` (not the dedicated
`ErrInvalidorganisationID` its sibling methods use); otherwise it delegates
to the db layer. -/
def serviceGet (ctx : Ctx) (ID : UUID) (db : List Organisation) :
    Except Err Organisation :=
  if ID = UUID.null then .error .svcInvalidOptions
  else sqldbGet ctx ID db

/-- `service.Update` (`organisation/service/service.go`): nil id, nil
options, service-level validation, then delegation. -/
def serviceUpdate (ctx : Ctx) (id : UUID) (options : Option UpdateOptions)
    (now : Nat) (db : List Organisation) :
    Except Err Organisation × List Organisation :=
  if id = UUID.null then (.error .svcInvalidOrganisationID, db)
  else
    match options with
    | none => (.error .svcInvalidOptions, db)
    | some o =>
      match o.svcValidate with
      | some e => (.error e, db)
      | none => sqldbUpdate ctx id (some { Title := o.Title }) now db

/-- `service.Delete` (`organisation/service/service.go`): nil id check, then
delegation. -/
def serviceDelete (ctx : Ctx) (ID : UUID) (now : Nat) (db : List Organisation) :
    Except Err Unit × List Organisation :=
  if ID = UUID.null then (.error .svcInvalidOrganisationID, db)
  else sqldbDelete ctx ID now db

/-- A row of the todo table (`services/todo/model.go`): `storage.Base` plus
`Title`; todos carry no owner. -/
structure Todo where
  id : UUID
  createdAt : Nat
  updatedAt : Nat
  deletedAt : Option Nat
  title : String
deriving Repr, DecidableEq

/-- `(*service).Create` of `services/todo/service.go`: no validation at all;
the title — empty or not — is inserted as given. -/
def todoCreate (title : String) (newID : UUID) (now : Nat) (db : List Todo) :
    Except Err Todo × List Todo :=
  let row : Todo :=
    { id := newID, createdAt := now, updatedAt := now, deletedAt := none,
      title := title }
  (.ok row, db ++ [row])

/-- `(*service).Delete` of `services/todo/service.go`: soft-delete by id and
return `result.Error` only — `RowsAffected` is never inspected, so deleting
a non-existent or already-deleted todo succeeds. -/
def todoDelete (ID : UUID) (now : Nat) (db : List Todo) :
    Except Err Unit × List Todo :=
  let rows := db.map fun r =>
    if r.id = ID && r.deletedAt = none then { r with deletedAt := some now }
    else r
  (.ok (), rows)

/-- The body the HTTP create handler decodes from the client
(`CreateOptions{Title}` in the handler tests): the client cannot supply an
owner. -/
structure HandlerCreateOptions where
  Title : String
deriving Repr, DecidableEq

/-- Modelled from the spec: the HTTP create handler (`NewCreateHandler`) is
not under `src/` — only its tests are.  Per the spec, the transport layer
decodes `{Title}` from the request body, requires the authenticated JWT
claims installed by the middleware, and sets the owner exclusively from the
authenticated caller's identity, never from client-supplied input. -/
def createHandler (ctx : Ctx) (body : HandlerCreateOptions) (newID : UUID)
    (now : Nat) (db : List Organisation) :
    Except Err Organisation × List Organisation :=
  match ctx with
  | none => (.error .hndInvalidJWTClaims, db)
  | some claims =>
    serviceCreate ctx (some { Title := body.Title, OwnerID := claims.XUserID })
      newID now db

/-! ### Lemmas about the query building blocks -/

theorem mem_orderedInsert {key : Organisation → String} {desc : Bool}
    {r a : Organisation} {l : List Organisation} :
    a ∈ orderedInsert key desc r l ↔ a = r ∨ a ∈ l := by
  induction l with
  | nil => simp [orderedInsert]
  | cons x xs ih =>
    simp only [orderedInsert]
    by_cases hc : (if desc then decide (key x ≤ key r) else decide (key r ≤ key x)) = true
    · rw [if_pos hc]
      simp [List.mem_cons]
    · rw [if_neg hc]
      simp only [List.mem_cons, ih]
      tauto

theorem mem_sortRows {key : Organisation → String} {desc : Bool}
    {a : Organisation} {l : List Organisation} :
    a ∈ sortRows key desc l ↔ a ∈ l := by
  induction l with
  | nil => simp [sortRows]
  | cons x xs ih => simp [sortRows, mem_orderedInsert, ih]

theorem mem_orderRows {ob od : String} {a : Organisation} {l : List Organisation} :
    a ∈ orderRows ob od l ↔ a ∈ l := by
  unfold orderRows
  split
  · exact Iff.rfl
  · split
    · exact mem_sortRows
    · exact Iff.rfl

theorem orderRows_nil {ob od : String} : orderRows ob od [] = [] := by
  unfold orderRows
  split
  · rfl
  · split <;> rfl

theorem mem_listQuery {scope : Option UUID} {o : ListOptions}
    {db : List Organisation} {a : Organisation} (h : a ∈ listQuery scope o db) :
    a ∈ db ∧ listPred scope o a = true := by
  simp only [listQuery] at h
  have h1 : a ∈ orderRows o.OrderBy o.OrderDirection (db.filter (listPred scope o)) := by
    by_cases hL : o.Limit > 0
    · rw [if_pos hL] at h
      have h2 := (List.take_sublist _ _).subset h
      by_cases hS : o.Skip > 0
      · rw [if_pos hS] at h2
        exact (List.drop_sublist _ _).subset h2
      · rw [if_neg hS] at h2
        exact h2
    · rw [if_neg hL] at h
      by_cases hS : o.Skip > 0
      · rw [if_pos hS] at h
        exact (List.drop_sublist _ _).subset h
      · rw [if_neg hS] at h
        exact h
  have h2 := mem_orderRows.mp h1
  exact ⟨List.mem_of_mem_filter h2, List.of_mem_filter h2⟩

theorem listQuery_no_pagination {scope : Option UUID} {o : ListOptions}
    {db : List Organisation} (hS : o.Skip = 0) (hL : o.Limit = 0) :
    listQuery scope o db =
      orderRows o.OrderBy o.OrderDirection (db.filter (listPred scope o)) := by
  unfold listQuery
  simp [hS, hL]

theorem map_if_neg_eq_self {p : Organisation → Bool} {f : Organisation → Organisation}
    {db : List Organisation} (h : ∀ r ∈ db, p r = false) :
    (db.map fun r => if p r then f r else r) = db := by
  induction db with
  | nil => rfl
  | cons x xs ih =>
    simp only [List.map_cons]
    rw [if_neg (by simp [h x (List.mem_cons_self x xs)]),
      ih fun r hr => h r (List.mem_cons_of_mem _ hr)]

theorem forall2_map_self {R : Organisation → Organisation → Prop}
    {f : Organisation → Organisation} {l : List Organisation}
    (h : ∀ a ∈ l, R a (f a)) : List.Forall₂ R l (l.map f) := by
  induction l with
  | nil => exact List.Forall₂.nil
  | cons x xs ih =>
    exact List.Forall₂.cons (h x (List.mem_cons_self x xs))
      (ih fun a ha => h a (List.mem_cons_of_mem _ ha))

theorem rowScope_iff {scope : Option UUID} {ID : UUID} {r : Organisation} :
    rowScope scope ID r = true ↔
      r.id = ID ∧ r.deletedAt = none ∧ ownerOk scope r = true := by
  simp [rowScope, Organisation.live, Bool.and_eq_true, and_assoc]

theorem listPred_iff {scope : Option UUID} {o : ListOptions} {r : Organisation} :
    listPred scope o r = true ↔
      r.deletedAt = none ∧ ownerOk scope r = true ∧
        (o.Title = "" ∨ r.title = o.Title) := by
  simp [listPred, Organisation.live, Bool.and_eq_true, Bool.or_eq_true, and_assoc]

theorem ownerOk_some {u : UUID} {r : Organisation} :
    ownerOk (some u) r = true ↔ r.ownerID = u := by
  simp [ownerOk]

theorem ownerScope_some {B : UUID} (hB : B ≠ UUID.null) :
    ownerScope (some ⟨B⟩) = some B := by
  simp [ownerScope, hB]

/-! ### Claim theorems -/

/-- **C1.** For every entity with owner identity A, a `List` call whose
context carries an authenticated identity B with B ≠ A returns a result set
that excludes that entity (an empty set when only A's entities exist), and a
`Get` call for that entity's id under B's identity fails with the
record-not-found error. -/
theorem claim1_owner_scoping_excludes_other_owners
    (A B : UUID) (r : Organisation) (db : List Organisation)
    (hmem : r ∈ db) (hA : r.ownerID = A) (hBA : B ≠ A) (hB : B ≠ UUID.null)
    (hid : r.id ≠ UUID.null)
    (huniq : ∀ s ∈ db, s.id = r.id → s = r) :
    (∀ options l, sqldbList (some ⟨B⟩) options db = .ok l →
        r ∉ l ∧ ((∀ s ∈ db, s.ownerID = A) → l = [])) ∧
    sqldbGet (some ⟨B⟩) r.id db = .error .gormNotFound := by
  have hscope : ownerScope (some ⟨B⟩) = some B := ownerScope_some hB
  constructor
  · intro options l hl
    simp only [sqldbList] at hl
    cases hv : (options.getD
        { Title := "", Skip := 0, Limit := 0, OrderBy := "", OrderDirection := "" }).validate with
    | some e =>
      rw [hv] at hl
      cases hl
    | none =>
      rw [hv] at hl
      have hlq : l = listQuery (ownerScope (some ⟨B⟩))
          (options.getD { Title := "", Skip := 0, Limit := 0, OrderBy := "", OrderDirection := "" }) db := by
        cases hl
        rfl
      constructor
      · intro hrl
        have hp := (mem_listQuery (hlq ▸ hrl)).2
        have hown := (listPred_iff.mp hp).2.1
        rw [hscope] at hown
        exact hBA ((ownerOk_some.mp hown).symm.trans hA)
      · intro hall
        have hfil : db.filter (listPred (ownerScope (some ⟨B⟩))
            (options.getD { Title := "", Skip := 0, Limit := 0, OrderBy := "", OrderDirection := "" })) = [] := by
          rw [List.filter_eq_nil_iff]
          intro a ha hpa
          have hown := (listPred_iff.mp hpa).2.1
          rw [hscope] at hown
          exact hBA ((ownerOk_some.mp hown).symm.trans (hall a ha))
        rw [hlq]
        simp only [listQuery]
        rw [hfil, orderRows_nil]
        simp
  · unfold sqldbGet
    rw [if_neg hid]
    have hnone : db.find? (rowScope (ownerScope (some ⟨B⟩)) r.id) = none := by
      rw [List.find?_eq_none]
      intro x hx hpx
      obtain ⟨hxid, _, hxo⟩ := rowScope_iff.mp hpx
      have hxr := huniq x hx hxid
      rw [hscope] at hxo
      have := ownerOk_some.mp hxo
      rw [hxr, hA] at this
      exact hBA this.symm
    rw [hnone]

/-- **C2.** Under an authenticated identity, `Get` on the id of an existing
entity owned by a different identity returns exactly the same
record-not-found error as `Get` on an id for which no entity exists at all:
ownership mismatch is observationally indistinguishable from absence. -/
theorem claim2_mismatch_indistinguishable_from_absence
    (B ID : UUID) (r : Organisation) (dbOwned dbAbsent : List Organisation)
    (hB : B ≠ UUID.null) (hid : ID ≠ UUID.null)
    (hmem : r ∈ dbOwned) (hrid : r.id = ID) (hown : r.ownerID ≠ B)
    (huniq : ∀ s ∈ dbOwned, s.id = ID → s = r)
    (habsent : ∀ s ∈ dbAbsent, s.id ≠ ID) :
    sqldbGet (some ⟨B⟩) ID dbOwned = .error .gormNotFound ∧
    sqldbGet (some ⟨B⟩) ID dbAbsent = .error .gormNotFound ∧
    sqldbGet (some ⟨B⟩) ID dbOwned = sqldbGet (some ⟨B⟩) ID dbAbsent := by
  have hscope : ownerScope (some ⟨B⟩) = some B := ownerScope_some hB
  have h1 : sqldbGet (some ⟨B⟩) ID dbOwned = .error .gormNotFound := by
    unfold sqldbGet
    rw [if_neg hid]
    have hnone : dbOwned.find? (rowScope (ownerScope (some ⟨B⟩)) ID) = none := by
      rw [List.find?_eq_none]
      intro x hx hpx
      obtain ⟨hxid, _, hxo⟩ := rowScope_iff.mp hpx
      have hxr := huniq x hx hxid
      rw [hscope] at hxo
      have := ownerOk_some.mp hxo
      rw [hxr] at this
      exact hown this
    rw [hnone]
  have h2 : sqldbGet (some ⟨B⟩) ID dbAbsent = .error .gormNotFound := by
    unfold sqldbGet
    rw [if_neg hid]
    have hnone : dbAbsent.find? (rowScope (ownerScope (some ⟨B⟩)) ID) = none := by
      rw [List.find?_eq_none]
      intro x hx hpx
      exact habsent x hx (rowScope_iff.mp hpx).1
    rw [hnone]
  exact ⟨h1, h2, h1.trans h2.symm⟩

/-- **C3.** `Delete` fails with `NoRowsAffected` exactly when zero rows match
the ownership-scoped delete predicate, and deleting the same id twice under
the same identity succeeds the first time and fails with `NoRowsAffected`
the second time. -/
theorem claim3_delete_no_rows_affected
    (ctx : Ctx) (ID : UUID) (now now2 : Nat) (db : List Organisation)
    (hid : ID ≠ UUID.null) :
    ((sqldbDelete ctx ID now db).1 = .error .dbNoRowsAffected ↔
      db.countP (rowScope (ownerScope ctx) ID) = 0) ∧
    (∀ db2, sqldbDelete ctx ID now db = (.ok (), db2) →
      (sqldbDelete ctx ID now2 db2).1 = .error .dbNoRowsAffected) := by
  constructor
  · unfold sqldbDelete
    rw [if_neg hid]
    by_cases hc : db.countP (rowScope (ownerScope ctx) ID) = 0
    · rw [if_pos hc]
      simpa using hc
    · rw [if_neg hc]
      simp [hc]
  · intro db2 h
    unfold sqldbDelete at h
    rw [if_neg hid] at h
    by_cases hc : db.countP (rowScope (ownerScope ctx) ID) = 0
    · rw [if_pos hc] at h
      cases h
    · rw [if_neg hc] at h
      have hdb2 : db2 = db.map fun r =>
          if rowScope (ownerScope ctx) ID r then { r with deletedAt := some now } else r := by
        cases h
        rfl
      have hzero : db2.countP (rowScope (ownerScope ctx) ID) = 0 := by
        rw [List.countP_eq_zero]
        intro a ha
        rw [hdb2, List.mem_map] at ha
        obtain ⟨x, _, hfx⟩ := ha
        by_cases hpx : rowScope (ownerScope ctx) ID x = true
        · rw [if_pos hpx] at hfx
          intro hpa
          have := (rowScope_iff.mp hpa).2.1
          rw [← hfx] at this
          cases this
        · rw [if_neg hpx] at hfx
          rw [← hfx]
          exact hpx
      unfold sqldbDelete
      rw [if_neg hid, if_pos hzero]

/-- After a delete marks the scoped rows, no row of the resulting store
matches the scoped row predicate any more. -/
theorem rowScope_false_of_marked {scope : Option UUID} {ID : UUID} {now : Nat}
    {db : List Organisation} {a : Organisation}
    (ha : a ∈ db.map fun r =>
      if rowScope scope ID r then { r with deletedAt := some now } else r) :
    ¬ rowScope scope ID a = true := by
  rw [List.mem_map] at ha
  obtain ⟨x, _, hfx⟩ := ha
  by_cases hpx : rowScope scope ID x = true
  · rw [if_pos hpx] at hfx
    intro hpa
    have hlive := (rowScope_iff.mp hpa).2.1
    rw [← hfx] at hlive
    cases hlive
  · rw [if_neg hpx] at hfx
    rw [← hfx]
    exact hpx

/-- **C4.** `Delete` sets the `DeletedAt` tombstone instead of removing the
row, and the soft-deleted entity is excluded from all subsequent reads under
the same caller: after a successful `Delete` of an id, `Get` on that id
fails with the record-not-found error and `List` never includes a row with
that id. -/
theorem claim4_soft_delete_excluded_from_reads
    (ctx : Ctx) (ID : UUID) (now : Nat) (db db2 : List Organisation)
    (h : sqldbDelete ctx ID now db = (.ok (), db2)) :
    db2.length = db.length ∧
    (∀ r ∈ db, rowScope (ownerScope ctx) ID r = true →
      ({ r with deletedAt := some now } : Organisation) ∈ db2) ∧
    sqldbGet ctx ID db2 = .error .gormNotFound ∧
    (∀ options l, sqldbList ctx options db2 = .ok l → ∀ s ∈ l, s.id ≠ ID) := by
  by_cases hid : ID = UUID.null
  · unfold sqldbDelete at h
    rw [if_pos hid] at h
    simp at h
  unfold sqldbDelete at h
  rw [if_neg hid] at h
  by_cases hc : db.countP (rowScope (ownerScope ctx) ID) = 0
  · rw [if_pos hc] at h
    simp at h
  rw [if_neg hc] at h
  have hdb2 : db2 = db.map fun r =>
      if rowScope (ownerScope ctx) ID r then { r with deletedAt := some now } else r := by
    cases h
    rfl
  have hunscoped : ∀ a ∈ db2, ¬ rowScope (ownerScope ctx) ID a = true := by
    intro a ha
    rw [hdb2] at ha
    exact rowScope_false_of_marked ha
  refine ⟨?_, ?_, ?_, ?_⟩
  · rw [hdb2, List.length_map]
  · intro r hr hpr
    rw [hdb2]
    exact List.mem_map.mpr ⟨r, hr, by rw [if_pos hpr]⟩
  · unfold sqldbGet
    rw [if_neg hid]
    have hnone : db2.find? (rowScope (ownerScope ctx) ID) = none := by
      rw [List.find?_eq_none]
      exact hunscoped
    rw [hnone]
  · intro options l hl s hs hsid
    simp only [sqldbList] at hl
    cases hv : (options.getD
        { Title := "", Skip := 0, Limit := 0, OrderBy := "", OrderDirection := "" }).validate with
    | some e =>
      rw [hv] at hl
      cases hl
    | none =>
      rw [hv] at hl
      have hlq : l = listQuery (ownerScope ctx)
          (options.getD { Title := "", Skip := 0, Limit := 0, OrderBy := "", OrderDirection := "" }) db2 := by
        cases hl
        rfl
      have hmem2 := mem_listQuery (hlq ▸ hs)
      obtain ⟨hlive, hown, _⟩ := listPred_iff.mp hmem2.2
      exact hunscoped s hmem2.1 (rowScope_iff.mpr ⟨hsid, hlive, hown⟩)

/-- **C5.** For every data-access operation and every input that fails
validation — nil options, empty title, nil owner, out-of-range pagination,
nil id — the exact validation error is returned and the store is unchanged;
the service layer additionally rejects nil `List` options. -/
theorem claim5_validation_fail_fast
    (ctx : Ctx) (db : List Organisation) (newID : UUID) (now : Nat)
    (o : CreateOptions) (lo : ListOptions) (uo : UpdateOptions) (id : UUID) :
    sqldbCreate ctx none newID now db = (.error .dbInvalidOptions, db) ∧
    (o.Title = "" → sqldbCreate ctx (some o) newID now db = (.error .dbInvalidTitle, db)) ∧
    (o.Title ≠ "" → o.OwnerID = UUID.null →
      sqldbCreate ctx (some o) newID now db = (.error .dbInvalidUserID, db)) ∧
    (lo.Skip < 0 ∨ lo.Limit < 0 ∨ lo.Limit > 100 →
      sqldbList ctx (some lo) db = .error .dbInvalidFilters) ∧
    sqldbGet ctx UUID.null db = .error .dbInvalidOrganisationID ∧
    sqldbUpdate ctx UUID.null (some uo) now db = (.error .dbInvalidOrganisationID, db) ∧
    (id ≠ UUID.null → sqldbUpdate ctx id none now db = (.error .dbInvalidOptions, db)) ∧
    (id ≠ UUID.null → uo.Title = "" →
      sqldbUpdate ctx id (some uo) now db = (.error .dbInvalidTitle, db)) ∧
    sqldbDelete ctx UUID.null now db = (.error .dbInvalidOrganisationID, db) ∧
    serviceList ctx none db = .error .svcInvalidOptions := by
  refine ⟨rfl, ?_, ?_, ?_, ?_, ?_, ?_, ?_, ?_, rfl⟩
  · intro h
    simp [sqldbCreate, CreateOptions.validate, h]
  · intro h1 h2
    simp [sqldbCreate, CreateOptions.validate, h1, h2]
  · intro h
    simp only [sqldbList, Option.getD_some, ListOptions.validate]
    rw [if_pos h]
  · simp [sqldbGet]
  · simp [sqldbUpdate]
  · intro h
    simp [sqldbUpdate, h]
  · intro h1 h2
    simp [sqldbUpdate, UpdateOptions.validate, h1, h2]
  · simp [sqldbDelete]

/-- **C7.** `Update` on a non-existent id, or on an id owned by a different
identity than the authenticated caller, returns the record-not-found error
of the ownership-scoped re-fetch and leaves the store unchanged: the
non-owner's update affects zero rows. -/
theorem claim7_update_nonowned_leaves_store_unchanged
    (B id : UUID) (now : Nat) (db : List Organisation) (o : UpdateOptions)
    (hB : B ≠ UUID.null) (hid : id ≠ UUID.null) (hT : o.Title ≠ "")
    (h : ∀ r ∈ db, r.id = id → r.ownerID ≠ B) :
    sqldbUpdate (some ⟨B⟩) id (some o) now db = (.error .gormNotFound, db) := by
  have hscope : ownerScope (some ⟨B⟩) = some B := ownerScope_some hB
  have hfalse : ∀ r ∈ db, rowScope (ownerScope (some ⟨B⟩)) id r = false := by
    intro r hr
    rw [Bool.eq_false_iff]
    intro hpr
    obtain ⟨hrid, _, hro⟩ := rowScope_iff.mp hpr
    rw [hscope] at hro
    exact h r hr hrid (ownerOk_some.mp hro)
  have hrows : (db.map fun r =>
      if rowScope (ownerScope (some ⟨B⟩)) id r then { r with title := o.Title, updatedAt := now }
      else r) = db := map_if_neg_eq_self hfalse
  have hget : sqldbGet (some ⟨B⟩) id db = .error .gormNotFound := by
    unfold sqldbGet
    rw [if_neg hid]
    have hnone : db.find? (rowScope (ownerScope (some ⟨B⟩)) id) = none := by
      rw [List.find?_eq_none]
      intro x hx hpx
      rw [hfalse x hx] at hpx
      cases hpx
    rw [hnone]
  simp only [sqldbUpdate, UpdateOptions.validate]
  rw [if_neg hid, if_neg hT]
  rw [hrows, hget]

/-- **C6 counterexample.** On the todo resource, `Create` with the empty
title succeeds instead of failing with an invalid-title error: the todo
service performs no validation at all, so the claim's "on every resource"
is false as stated. -/
theorem claim6_counterexample :
    todoCreate "" 1 0 [] =
      (.ok { id := 1, createdAt := 0, updatedAt := 0, deletedAt := none, title := "" },
       [{ id := 1, createdAt := 0, updatedAt := 0, deletedAt := none, title := "" }]) := by
  rfl

/-- **C6 (amended).** For the organisation resource — at both the
data-access and the service layer — `Create` fails with the invalid-title
error when the title is empty and with the invalid-owner error when the
owner id is nil, and `Update` fails with the invalid-title error when the
title is empty; the todo service, by contrast, performs no validation and
inserts any title as given. -/
theorem claim6_title_owner_validation_amended
    (ctx : Ctx) (o : CreateOptions) (uo : UpdateOptions)
    (newID : UUID) (now : Nat) (db : List Organisation) (id : UUID)
    (title : String) (newID2 : UUID) (tdb : List Todo) :
    (o.Title = "" →
      o.validate = some .dbInvalidTitle ∧
      sqldbCreate ctx (some o) newID now db = (.error .dbInvalidTitle, db) ∧
      serviceCreate ctx (some o) newID now db = (.error .svcInvalidTitle, db)) ∧
    (o.Title ≠ "" → o.OwnerID = UUID.null →
      o.validate = some .dbInvalidUserID ∧
      sqldbCreate ctx (some o) newID now db = (.error .dbInvalidUserID, db) ∧
      serviceCreate ctx (some o) newID now db = (.error .svcInvalidUserID, db)) ∧
    (uo.Title = "" → id ≠ UUID.null →
      sqldbUpdate ctx id (some uo) now db = (.error .dbInvalidTitle, db) ∧
      serviceUpdate ctx id (some uo) now db = (.error .svcInvalidTitle, db)) ∧
    todoCreate title newID2 now tdb =
      (.ok { id := newID2, createdAt := now, updatedAt := now, deletedAt := none, title := title },
       tdb ++ [{ id := newID2, createdAt := now, updatedAt := now, deletedAt := none, title := title }]) := by
  refine ⟨?_, ?_, ?_, rfl⟩
  · intro h
    refine ⟨?_, ?_, ?_⟩ <;>
      simp [CreateOptions.validate, CreateOptions.svcValidate, sqldbCreate, serviceCreate, h]
  · intro h1 h2
    refine ⟨?_, ?_, ?_⟩ <;>
      simp [CreateOptions.validate, CreateOptions.svcValidate, sqldbCreate, serviceCreate, h1, h2]
  · intro h1 h2
    constructor <;>
      simp [sqldbUpdate, serviceUpdate, UpdateOptions.validate, UpdateOptions.svcValidate, h1, h2]

/-- **C8.** The owner is immutable after creation: a successful `Update`
changes only the whitelisted title (and the `updated_at` timestamp), leaving
the id, the owner and the creation timestamp of every stored row unchanged;
and at creation the owner is set exclusively from the authenticated caller's
identity, never from client-supplied input (the handler body carries no
owner field). -/
theorem claim8_owner_immutable_set_from_identity :
    (∀ (ctx : Ctx) (id : UUID) (o : UpdateOptions) (now : Nat)
        (db db2 : List Organisation) (u : Organisation),
      sqldbUpdate ctx id (some o) now db = (.ok u, db2) →
      List.Forall₂ (fun r t => t.id = r.id ∧ t.ownerID = r.ownerID ∧
        t.createdAt = r.createdAt ∧ t.deletedAt = r.deletedAt ∧
        (t.title = r.title ∨ t.title = o.Title)) db db2) ∧
    (∀ (ctx : Ctx) (body : HandlerCreateOptions) (newID : UUID) (now : Nat)
        (db : List Organisation) (u : Organisation) (db2 : List Organisation),
      createHandler ctx body newID now db = (.ok u, db2) →
      ∃ claims, ctx = some claims ∧ u.ownerID = claims.XUserID) := by
  constructor
  · intro ctx id o now db db2 u h
    by_cases hid : id = UUID.null
    · rw [sqldbUpdate, if_pos hid] at h
      simp at h
    simp only [sqldbUpdate, if_neg hid] at h
    cases hv : o.validate with
    | some e =>
      rw [hv] at h
      simp at h
    | none =>
      rw [hv] at h
      have hdb2 : db2 = db.map fun r =>
          if rowScope (ownerScope ctx) id r then { r with title := o.Title, updatedAt := now }
          else r := by
        cases hg : sqldbGet ctx id (db.map fun r =>
            if rowScope (ownerScope ctx) id r then { r with title := o.Title, updatedAt := now }
            else r) with
        | ok v =>
          rw [hg] at h
          exact ((Prod.mk.injEq _ _ _ _).mp h).2.symm
        | error e =>
          rw [hg] at h
          simp at h
      rw [hdb2]
      apply forall2_map_self
      intro a _
      by_cases hpa : rowScope (ownerScope ctx) id a = true
      · rw [if_pos hpa]
        exact ⟨rfl, rfl, rfl, rfl, Or.inr rfl⟩
      · rw [if_neg hpa]
        exact ⟨rfl, rfl, rfl, rfl, Or.inl rfl⟩
  · intro ctx body newID now db u db2 h
    cases ctx with
    | none => simp [createHandler] at h
    | some claims =>
      refine ⟨claims, rfl, ?_⟩
      simp only [createHandler, serviceCreate] at h
      cases hv : CreateOptions.svcValidate { Title := body.Title, OwnerID := claims.XUserID } with
      | some e =>
        rw [hv] at h
        simp at h
      | none =>
        rw [hv] at h
        simp only [sqldbCreate] at h
        cases hv2 : CreateOptions.validate { Title := body.Title, OwnerID := claims.XUserID } with
        | some e =>
          rw [hv2] at h
          simp at h
        | none =>
          rw [hv2] at h
          have h1 := ((Prod.mk.injEq _ _ _ _).mp h).1
          have h2 := Except.ok.inj h1
          rw [← h2]

/-- **C9.** On the nil id the data-access `Get` fails with the dedicated
invalid-id error before reaching the store, but the service-layer `Get`
returns the service package's generic `ErrInvalidOptions` instead of its
dedicated `ErrInvalidorganisationID` (the error its sibling `Update` and
`Delete` methods return for a nil id): the claim's "InvalidID at both
layers" fails at the service layer. -/
theorem claim9_service_get_nil_id_error (ctx : Ctx) (db : List Organisation) :
    serviceGet ctx UUID.null db = .error .svcInvalidOptions ∧
    sqldbGet ctx UUID.null db = .error .dbInvalidOrganisationID ∧
    Err.svcInvalidOptions ≠ Err.svcInvalidOrganisationID := by
  refine ⟨rfl, by simp [sqldbGet], by decide⟩

/-- **C10.** With `Limit = 0` no limit predicate is applied — `List` returns
all matching rows rather than zero rows — and with `Skip = 0` no rows are
skipped: only strictly positive values narrow the query. -/
theorem claim10_zero_pagination_not_applied
    (ctx : Ctx) (o : ListOptions) (db : List Organisation)
    (hS : o.Skip = 0) (hL : o.Limit = 0) :
    sqldbList ctx (some o) db =
      .ok (orderRows o.OrderBy o.OrderDirection (db.filter (listPred (ownerScope ctx) o))) ∧
    (∀ l, sqldbList ctx (some o) db = .ok l →
      ∀ s, s ∈ l ↔ (s ∈ db ∧ listPred (ownerScope ctx) o s = true)) := by
  have hvalid : o.validate = none := by
    simp [ListOptions.validate, hS, hL]
  have h1 : sqldbList ctx (some o) db =
      .ok (orderRows o.OrderBy o.OrderDirection (db.filter (listPred (ownerScope ctx) o))) := by
    simp only [sqldbList, Option.getD_some]
    rw [hvalid, listQuery_no_pagination hS hL]
  refine ⟨h1, ?_⟩
  intro l hl s
  rw [h1] at hl
  have hl2 := Except.ok.inj hl
  rw [← hl2, mem_orderRows, List.mem_filter]

/-! ### Witnesses: the claim theorems applied at concrete stores -/

/-- Witness for C1: a store with one row owned by 7; caller 8 gets
record-not-found. -/
theorem claim1_witness :
    sqldbGet (some ⟨8⟩) 1
      [{ id := 1, createdAt := 0, updatedAt := 0, deletedAt := none, title := "t", ownerID := 7 }] =
      .error .gormNotFound :=
  (claim1_owner_scoping_excludes_other_owners 7 8
    { id := 1, createdAt := 0, updatedAt := 0, deletedAt := none, title := "t", ownerID := 7 }
    [{ id := 1, createdAt := 0, updatedAt := 0, deletedAt := none, title := "t", ownerID := 7 }]
    (by decide) rfl (by decide) (by decide) (by decide) (by decide)).2

/-- Witness for C2: the mismatch store and the empty store give the same
error. -/
theorem claim2_witness :
    sqldbGet (some ⟨8⟩) 1
      [{ id := 1, createdAt := 0, updatedAt := 0, deletedAt := none, title := "t", ownerID := 7 }] =
      .error .gormNotFound ∧
    sqldbGet (some ⟨8⟩) 1 [] = .error .gormNotFound := by
  have h := claim2_mismatch_indistinguishable_from_absence 8 1
    { id := 1, createdAt := 0, updatedAt := 0, deletedAt := none, title := "t", ownerID := 7 }
    [{ id := 1, createdAt := 0, updatedAt := 0, deletedAt := none, title := "t", ownerID := 7 }]
    [] (by decide) (by decide) (by decide) rfl (by decide) (by decide) (by decide)
  exact ⟨h.1, h.2.1⟩

/-- Witness for C3: deleting the same row twice. -/
theorem claim3_witness :
    (sqldbDelete (some ⟨7⟩) 1 6
      (sqldbDelete (some ⟨7⟩) 1 5
        [{ id := 1, createdAt := 0, updatedAt := 0, deletedAt := none, title := "t", ownerID := 7 }]).2).1 =
      .error .dbNoRowsAffected := by
  have h := claim3_delete_no_rows_affected (some ⟨7⟩) 1 5 6
    [{ id := 1, createdAt := 0, updatedAt := 0, deletedAt := none, title := "t", ownerID := 7 }]
    (by decide)
  exact h.2 _ (by decide)

/-- Witness for C4: after a successful delete, the get fails. -/
theorem claim4_witness :
    sqldbGet (some ⟨7⟩) 1
      (sqldbDelete (some ⟨7⟩) 1 5
        [{ id := 1, createdAt := 0, updatedAt := 0, deletedAt := none, title := "t", ownerID := 7 }]).2 =
      .error .gormNotFound := by
  have h := claim4_soft_delete_excluded_from_reads (some ⟨7⟩) 1 5
    [{ id := 1, createdAt := 0, updatedAt := 0, deletedAt := none, title := "t", ownerID := 7 }]
    (sqldbDelete (some ⟨7⟩) 1 5
      [{ id := 1, createdAt := 0, updatedAt := 0, deletedAt := none, title := "t", ownerID := 7 }]).2
    (by decide)
  exact h.2.2.1

/-- Witness for C5: concrete invalid inputs for create, list and update. -/
theorem claim5_witness :
    sqldbCreate none (some { Title := "", OwnerID := 7 }) 1 0 [] = (.error .dbInvalidTitle, []) ∧
    sqldbList none
      (some { Title := "", Skip := 0, Limit := 101, OrderBy := "", OrderDirection := "" }) [] =
      .error .dbInvalidFilters ∧
    sqldbUpdate none 1 (some { Title := "" }) 0 [] = (.error .dbInvalidTitle, []) := by
  have h := claim5_validation_fail_fast none [] 1 0 { Title := "", OwnerID := 7 }
    { Title := "", Skip := 0, Limit := 101, OrderBy := "", OrderDirection := "" }
    { Title := "" } 1
  exact ⟨h.2.1 rfl, h.2.2.2.1 (by decide), h.2.2.2.2.2.2.2.1 (by decide) rfl⟩

/-- Witness for C6 (amended): the organisation validators reject the empty
title on create and on update. -/
theorem claim6_witness :
    CreateOptions.validate { Title := "", OwnerID := 7 } = some .dbInvalidTitle ∧
    sqldbUpdate none 1 (some { Title := "" }) 0 [] = (.error .dbInvalidTitle, []) := by
  have h := claim6_title_owner_validation_amended none { Title := "", OwnerID := 7 }
    { Title := "" } 1 0 [] 1 "x" 2 []
  exact ⟨(h.1 rfl).1, (h.2.2.1 rfl (by decide)).1⟩

/-- Witness for C7: caller 8 updating the row owned by 7 gets
record-not-found and the store is unchanged. -/
theorem claim7_witness :
    sqldbUpdate (some ⟨8⟩) 1 (some { Title := "b" }) 5
      [{ id := 1, createdAt := 0, updatedAt := 0, deletedAt := none, title := "t", ownerID := 7 }] =
      (.error .gormNotFound,
       [{ id := 1, createdAt := 0, updatedAt := 0, deletedAt := none, title := "t", ownerID := 7 }]) :=
  claim7_update_nonowned_leaves_store_unchanged 8 1 5
    [{ id := 1, createdAt := 0, updatedAt := 0, deletedAt := none, title := "t", ownerID := 7 }]
    { Title := "b" } (by decide) (by decide) (by decide) (by decide)

/-- Witness for C8: a concrete successful update preserves id, owner and
creation time, and a concrete handler creation takes the owner from the
claims. -/
theorem claim8_witness :
    List.Forall₂ (fun (r t : Organisation) => t.id = r.id ∧ t.ownerID = r.ownerID ∧
        t.createdAt = r.createdAt ∧ t.deletedAt = r.deletedAt ∧
        (t.title = r.title ∨ t.title = "b"))
      [{ id := 1, createdAt := 0, updatedAt := 0, deletedAt := none, title := "a", ownerID := 7 }]
      [{ id := 1, createdAt := 0, updatedAt := 5, deletedAt := none, title := "b", ownerID := 7 }] ∧
    ∃ claims, (some (⟨7⟩ : JWTClaims) : Ctx) = some claims ∧
      ({ id := 2, createdAt := 3, updatedAt := 3, deletedAt := none, title := "x", ownerID := 7 } :
        Organisation).ownerID = claims.XUserID := by
  constructor
  · exact claim8_owner_immutable_set_from_identity.1 (some ⟨7⟩) 1 { Title := "b" } 5
      [{ id := 1, createdAt := 0, updatedAt := 0, deletedAt := none, title := "a", ownerID := 7 }]
      [{ id := 1, createdAt := 0, updatedAt := 5, deletedAt := none, title := "b", ownerID := 7 }]
      { id := 1, createdAt := 0, updatedAt := 5, deletedAt := none, title := "b", ownerID := 7 }
      (by decide)
  · exact claim8_owner_immutable_set_from_identity.2 (some ⟨7⟩) ⟨"x"⟩ 2 3 []
      { id := 2, createdAt := 3, updatedAt := 3, deletedAt := none, title := "x", ownerID := 7 }
      [{ id := 2, createdAt := 3, updatedAt := 3, deletedAt := none, title := "x", ownerID := 7 }]
      (by decide)

/-- Witness for C10: with zero limit and skip the single matching row is
returned. -/
theorem claim10_witness :
    sqldbList none
      (some { Title := "", Skip := 0, Limit := 0, OrderBy := "", OrderDirection := "" })
      [{ id := 1, createdAt := 0, updatedAt := 0, deletedAt := none, title := "t", ownerID := 7 }] =
      .ok [{ id := 1, createdAt := 0, updatedAt := 0, deletedAt := none, title := "t", ownerID := 7 }] := by
  have h := claim10_zero_pagination_not_applied none
    { Title := "", Skip := 0, Limit := 0, OrderBy := "", OrderDirection := "" }
    [{ id := 1, createdAt := 0, updatedAt := 0, deletedAt := none, title := "t", ownerID := 7 }]
    rfl rfl
  exact h.1.trans (by decide)

end Boilerplate
